import Mathlib

/-!
# Verification of the weather aggregation service

Shallow embedding of the `holykol/weather` aggregation-and-caching core
(`src/service.rs`, `src/provider.rs`, `src/main.rs`) and proofs of the
specification claims about it.

Modelling conventions:

* `f32` temperatures and coordinates are represented by `ℚ`.  Every concrete
  value appearing in the claims (small integers, `f32::EPSILON = 2 ^ (-23)`
  and its doubles) is exactly representable in `f32`, and every arithmetic
  operation the claims exercise on them (subtraction of epsilon-scale values,
  absolute value, sums of small integers, division by small counts) is exact
  in `f32`, so the rational model agrees with the machine-float execution on
  those inputs.
* Rust `panic!` in a constructor is modelled as `Option.none`.
* `anyhow` error values are modelled as their cause chain: a list of messages,
  outermost context first.  `Context::context` prepends a message;
  `format!("{:#}", err)` renders the chain joined by `": "`.
* `chrono::Date<Local>` is modelled as an integer day number.
* Async execution: `future::join_all` awaits every future and yields results
  in provider-list order, so the fan-out is modelled as a `List.map` over the
  provider list, and the number of `fetch` invocations a code path performs is
  recorded explicitly (`fetchCalls`).
-/

/-- A single day temperature, `f32` in the source. -/
abbrev Temp : Type := ℚ

/-- `[f32; 5]`: a five-day forecast, indexed by day `0..4`. -/
abbrev Forecast : Type := Fin 5 → Temp

/-- `Pos(f32, f32)` from `service.rs`: latitude and longitude. -/
structure Pos where
  lat : ℚ
  lon : ℚ
deriving DecidableEq, Repr

/-- `f32::EPSILON` is exactly `2 ^ (-23)`. -/
def f32Eps : ℚ := 1 / 2 ^ 23

/-- `impl cmp::PartialEq for Pos`: tolerance-based equality,
`(self.0 - other.0).abs() <= f32::EPSILON && (self.1 - other.1).abs() <= f32::EPSILON`.
On epsilon-scale `f32` values this subtraction and comparison are exact, so the
rational model is faithful. -/
def Pos.eqv (a b : Pos) : Bool :=
  decide (|a.lat - b.lat| ≤ f32Eps) && decide (|a.lon - b.lon| ≤ f32Eps)

/-- `impl hash::Hash for Pos` feeds the hasher `self.0.to_ne_bytes()` then
`self.1.to_ne_bytes()`.  `f32::to_ne_bytes` is injective on the (finite,
non-NaN, positively-signed) values we model, so the written byte string is
represented by the pair of numeric values it encodes: two positions write the
same hasher input iff this pair agrees. -/
def Pos.hashBytes (p : Pos) : ℚ × ℚ :=
  (p.lat, p.lon)

/-- An `anyhow` error as its cause chain, outermost context first.
Always nonempty for a real error value. -/
abbrev Err : Type := List String

/-- `format!("{:#}", err)`: the alternate `anyhow` display prints the
outermost message and every source in the chain, separated by `": "`. -/
def renderErr : Err → String
  | [] => ""
  | [m] => m
  | m :: rest => m ++ ": " ++ renderErr rest

/-- A provider, reduced to its `fetch` behaviour at each position
(`Provider::fetch(&self, pos: Pos) -> Result<[f32; 5]>`). -/
abbrev Provider : Type := Pos → Except Err Forecast

/-- The all-zero accumulator `let mut avg = [0.0; 5];`. -/
def zeroF : Forecast := fun _ => 0

/-- One iteration of `for (i, t) in avg.iter_mut().enumerate() { *t += result[i] }`. -/
def addF (a b : Forecast) : Forecast := fun i => a i + b i

/-- The context message added at `result.context("error while fetching forecast")`. -/
def fetchCtx : String := "error while fetching forecast"

/-- One step of the result loop in `Service::fetch_forecast`: a previous error
short-circuits (the `?` operator has already returned), the first failing
result is wrapped with the fetching context, a success is accumulated. -/
def accStep (acc : Except Err Forecast) (r : Except Err Forecast) :
    Except Err Forecast :=
  match acc, r with
  | .error e, _ => .error e
  | .ok _, .error e => .error (fetchCtx :: e)
  | .ok a, .ok f => .ok (addF a f)

/-- The `for result in future::join_all(futures).await` loop of
`Service::fetch_forecast`: accumulate element-wise sums, failing with the
context-wrapped first error. -/
def accumulate (results : List (Except Err Forecast)) : Except Err Forecast :=
  List.foldl accStep (.ok zeroF) results

/-- `Service::fetch_forecast`: fan out to every provider (`join_all` yields
results in provider-list order), sum element-wise, then divide every day by
`self.providers.len() as f32`. -/
def fetch_forecast (providers : List Provider) (pos : Pos) :
    Except Err Forecast :=
  match accumulate (providers.map (fun p => p pos)) with
  | .error e => .error e
  | .ok s => .ok (fun i => s i / (providers.length : ℚ))

/-- First error in a result list, in provider-list order. -/
def firstErr : List (Except Err Forecast) → Option Err
  | [] => none
  | .ok _ :: rest => firstErr rest
  | .error e :: _ => some e

/-- `struct CacheEntry { date: Date<Local>, forecast: [f32; 5] }` with the
date as an integer day number. -/
structure CacheEntry where
  date : ℤ
  forecast : Forecast
deriving DecidableEq

/-- The `HashMap<Pos, CacheEntry>` behind the cache, as its list of entries. -/
abbrev Cache : Type := List (Pos × CacheEntry)

/-- Whether a `HashMap` probe for query key `q` finds stored key `k`: the
bucket probe demands the hashed byte strings agree (we model the hash as
collision-free on distinct hasher inputs, the property `HashMap` relies on),
and the in-bucket comparison is `PartialEq`, i.e. `Pos.eqv`. -/
def keyMatch (k q : Pos) : Bool :=
  decide (k.hashBytes = q.hashBytes) && Pos.eqv k q

/-- `HashMap::get(&pos)`: the entry stored under a key that `keyMatch`es the
query, if any. -/
def cacheGet (c : Cache) (q : Pos) : Option CacheEntry :=
  (c.find? (fun kv => keyMatch kv.1 q)).map (fun kv => kv.2)

/-- `HashMap::insert(pos, entry)`: replace the value stored under a matching
key (the stored key itself is kept, as `HashMap` does; a map holds at most one
matching entry), else add a new entry. -/
def cacheInsert : Cache → Pos → CacheEntry → Cache
  | [], p, e => [(p, e)]
  | kv :: rest, p, e =>
    if keyMatch kv.1 p then (kv.1, e) :: rest else kv :: cacheInsert rest p e

/-- The fast path of `Service::forecast` (lines 103-109): read the cache and
return the stored forecast iff its date is today. -/
def freshHit (cache : Cache) (pos : Pos) (today : ℤ) : Option Forecast :=
  match cacheGet cache pos with
  | some entry => if entry.date = today then some entry.forecast else none
  | none => none

/-- `Service { providers, cache }`; the cache is passed explicitly to
`forecast` below, so only the provider list is construction state. -/
structure Service where
  providers : List Provider

/-- `Service::new`: `panic!` (modelled as `none`) when the provider list is
empty, otherwise the service. -/
def Service.new (providers : List Provider) : Option Service :=
  if providers.length = 0 then none else some ⟨providers⟩

/-- Observable outcome of one `Service::forecast` call: the returned result,
the cache contents afterwards, and how many provider `fetch` invocations the
call performed. -/
structure ForecastOutcome where
  result : Except Err Forecast
  cache : Cache
  fetchCalls : Nat

/-- `Service::forecast`: on a fresh cache hit return the cached forecast with
no provider contact; otherwise run `fetch_forecast` (which `join_all`s one
`fetch` per provider, hence `providers.length` invocations) and on success
insert the result under `(pos, today)` before returning it.  On failure the
`?` on line 113 propagates the error with the cache untouched. -/
def Service.forecast (s : Service) (today : ℤ) (cache : Cache) (pos : Pos) :
    ForecastOutcome :=
  match freshHit cache pos today with
  | some f => ⟨.ok f, cache, 0⟩
  | none =>
    match fetch_forecast s.providers pos with
    | .error e => ⟨.error e, cache, s.providers.length⟩
    | .ok f => ⟨.ok f, cacheInsert cache pos ⟨today, f⟩, s.providers.length⟩

/-! ## City catalog (`CITIES` in `service.rs`, `fetch` in `main.rs`) -/

/-- Models `str::to_lowercase()`: the per-character simple lowercase mapping,
which agrees with the Rust method on the ASCII strings involved here. -/
def strLower (s : String) : String :=
  String.mk (s.data.map Char.toLower)

/-- One record of `cities.json`: `struct City { country, name, lat, lng }`. -/
structure City where
  country : String
  name : String
  lat : ℚ
  lng : ℚ

/-- A `HashMap` with `String` keys as an association list (for strings the
`Hash`/`Eq` contract holds, so lookups are exact-key). -/
abbrev SMap (α : Type) : Type := List (String × α)

/-- `HashMap::get` for string keys. -/
def sGet {α : Type} (m : SMap α) (k : String) : Option α :=
  (m.find? (fun kv => kv.1 = k)).map (fun kv => kv.2)

/-- `HashMap::insert` for string keys. -/
def sInsert {α : Type} : SMap α → String → α → SMap α
  | [], k, v => [(k, v)]
  | kv :: rest, k, v =>
    if kv.1 = k then (kv.1, v) :: rest else kv :: sInsert rest k v

/-- `Cities`: country code to (lowercased city name to position). -/
abbrev CitiesMap : Type := SMap (SMap Pos)

/-- One loop iteration of the `lazy_static` builder of `CITIES`: fetch or
create the country submap (`entry(..).or_default()`) and insert the record
under the lowercased city name. -/
def addCity (m : CitiesMap) (city : City) : CitiesMap :=
  let country := (sGet m city.country).getD []
  sInsert m city.country
    (sInsert country (strLower city.name) (Pos.mk city.lat city.lng))

/-- The `lazy_static` builder of `CITIES`: fold `addCity` over the records. -/
def buildCities (records : List City) : CitiesMap :=
  List.foldl addCity [] records

/-- `CITIES::find`: exact lookup of the country, then exact lookup of the
city string in the country submap. -/
def citiesFind (m : CitiesMap) (country city : String) : Option Pos := do
  let c ← sGet m country
  sGet c city

/-- The resolution step of `fetch` in `main.rs`:
`CITIES.find(&country, &city.to_lowercase())`. -/
def resolvePos (records : List City) (country city : String) : Option Pos :=
  citiesFind (buildCities records) country (strLower city)

/-! ## Concrete fixtures (mirroring `provider::fake` and the tests) -/

/-- The forecast `[2, 3, 4, 5, 6]`, what `stub(2.0)` returns. -/
def vA : Forecast := ![2, 3, 4, 5, 6]

/-- The forecast `[4, 5, 6, 7, 8]`, what `stub(4.0)` returns. -/
def vB : Forecast := ![4, 5, 6, 7, 8]

/-- A stub provider always returning `vA`. -/
def provA : Provider := fun _ => .ok vA

/-- A stub provider always returning `vB`. -/
def provB : Provider := fun _ => .ok vB

/-- `erroneous("something bad happened")`: a provider that always fails. -/
def provErr : Provider := fun _ => .error ["something bad happened"]

/-- A service over the two stub providers. -/
def svc2 : Service := ⟨[provA, provB]⟩

/-- A service whose second provider fails. -/
def svcErr : Service := ⟨[provA, provErr]⟩

/-- A service whose only provider fails. -/
def svcFail : Service := ⟨[provErr]⟩

/-- The origin position. -/
def pos0 : Pos := ⟨0, 0⟩

/-- A position one machine epsilon away from `pos0` in latitude. -/
def posEps : Pos := ⟨f32Eps, 0⟩

/-- A position two machine epsilons away from `pos0` in latitude. -/
def pos2Eps : Pos := ⟨2 * f32Eps, 0⟩

/-- A cache entry computed on day 0 holding `vA`. -/
def entryToday : CacheEntry := ⟨0, vA⟩

/-- A cache entry computed two days before day 0 (as in the `service` test). -/
def entryStale : CacheEntry := ⟨-2, ![0, 0, 0, 0, 0]⟩

/-- A cache with a fresh entry for `pos0`. -/
def cacheToday : Cache := [(pos0, entryToday)]

/-- A cache with a stale entry for `pos0`. -/
def cacheStale : Cache := [(pos0, entryStale)]

/-- A one-record catalog: Chicago, US (coordinates irrelevant to lookups). -/
def cityChicago : City := ⟨"US", "Chicago", 1, 2⟩

/-- The record list holding only `cityChicago`. -/
def records1 : List City := [cityChicago]

-- Sanity: the spec example, two providers returning [2,3,4,5,6] and [4,5,6,7,8].
example :
    fetch_forecast
      [fun _ => .ok ![2, 3, 4, 5, 6], fun _ => .ok ![4, 5, 6, 7, 8]]
      ⟨0, 0⟩ = .ok ![3, 4, 5, 6, 7] := by
  show Except.ok (fun i =>
      addF (addF zeroF ![2, 3, 4, 5, 6]) ![4, 5, 6, 7, 8] i / ((2 : Nat) : ℚ)) = _
  congr 1
  funext i
  fin_cases i <;> norm_num [addF, zeroF]

/-! ## Helper lemmas: combination loop -/

theorem accStep_error (e : Err) (r : Except Err Forecast) :
    accStep (.error e) r = .error e := rfl

theorem foldl_accStep_error (rs : List (Except Err Forecast)) (e : Err) :
    List.foldl accStep (.error e) rs = .error e := by
  induction rs with
  | nil => rfl
  | cons r rs ih => simpa [List.foldl, accStep_error] using ih

theorem foldl_accStep_ok (vs : List Forecast) (a : Forecast) :
    List.foldl accStep (.ok a) (vs.map Except.ok) =
      .ok (List.foldl addF a vs) := by
  induction vs generalizing a with
  | nil => rfl
  | cons v vs ih => simp [List.foldl, accStep, ih]

theorem foldl_addF_apply (vs : List Forecast) (a : Forecast) (i : Fin 5) :
    List.foldl addF a vs i = a i + (vs.map (fun v => v i)).sum := by
  induction vs generalizing a with
  | nil => simp
  | cons v vs ih => simp [List.foldl, ih, addF, add_assoc]

theorem foldl_accStep_firstErr (rs : List (Except Err Forecast)) (e : Err)
    (a : Forecast) (h : firstErr rs = some e) :
    List.foldl accStep (.ok a) rs = .error (fetchCtx :: e) := by
  induction rs generalizing a with
  | nil => simp [firstErr] at h
  | cons r rs ih =>
    cases r with
    | error e0 =>
      simp [firstErr] at h
      subst h
      simp [List.foldl, accStep, foldl_accStep_error]
    | ok v =>
      simp [firstErr] at h
      simp [List.foldl, accStep, ih _ h]

theorem fetch_forecast_ok (providers : List Provider) (pos : Pos)
    (vs : List Forecast)
    (h : providers.map (fun p => p pos) = vs.map Except.ok) :
    fetch_forecast providers pos =
      .ok (fun i => (vs.map (fun v => v i)).sum / (providers.length : ℚ)) := by
  unfold fetch_forecast accumulate
  rw [h, foldl_accStep_ok]
  show Except.ok (fun i => List.foldl addF zeroF vs i / (providers.length : ℚ)) = _
  congr 1
  funext i
  rw [foldl_addF_apply]
  simp [zeroF]

theorem fetch_forecast_error (providers : List Provider) (pos : Pos) (e : Err)
    (h : firstErr (providers.map (fun p => p pos)) = some e) :
    fetch_forecast providers pos = .error (fetchCtx :: e) := by
  unfold fetch_forecast accumulate
  rw [foldl_accStep_firstErr _ _ _ h]

/-! ## Helper lemmas: position keys and the cache -/

theorem eqv_refl (p : Pos) : Pos.eqv p p = true := by
  simp [Pos.eqv, f32Eps]

theorem keyMatch_iff (k q : Pos) : keyMatch k q = true ↔ k = q := by
  constructor
  · intro h
    simp only [keyMatch, Bool.and_eq_true, decide_eq_true_eq] at h
    have hb := h.1
    cases k
    cases q
    simpa [Pos.hashBytes, Pos.mk.injEq, Prod.mk.injEq] using hb
  · rintro rfl
    simp [keyMatch, eqv_refl, Pos.hashBytes]

theorem keyMatch_refl (p : Pos) : keyMatch p p = true :=
  (keyMatch_iff p p).mpr rfl

theorem keyMatch_ne (k q : Pos) (h : k ≠ q) : keyMatch k q = false := by
  cases hkm : keyMatch k q with
  | false => rfl
  | true => exact absurd ((keyMatch_iff k q).mp hkm) h

theorem cacheGet_insert_self (c : Cache) (p : Pos) (e : CacheEntry) :
    cacheGet (cacheInsert c p e) p = some e := by
  induction c with
  | nil => simp [cacheInsert, cacheGet, List.find?, keyMatch_refl]
  | cons kv rest ih =>
    by_cases hk : keyMatch kv.1 p = true
    · have hkv : kv.1 = p := (keyMatch_iff kv.1 p).mp hk
      simp [cacheInsert, hk, cacheGet, List.find?, hkv, keyMatch_refl]
    · simp only [cacheInsert, hk, if_false, Bool.false_eq_true]
      simpa [cacheGet, List.find?, hk] using ih

theorem cacheGet_insert_ne (c : Cache) (p q : Pos) (e : CacheEntry)
    (h : q ≠ p) :
    cacheGet (cacheInsert c p e) q = cacheGet c q := by
  induction c with
  | nil =>
    simp [cacheInsert, cacheGet, List.find?, keyMatch_ne p q (Ne.symm h)]
  | cons kv rest ih =>
    by_cases hk : keyMatch kv.1 p = true
    · have hkv : kv.1 = p := (keyMatch_iff kv.1 p).mp hk
      have hq : keyMatch kv.1 q = false := by
        rw [hkv]; exact keyMatch_ne p q (Ne.symm h)
      simp [cacheInsert, hk, cacheGet, List.find?, hq]
    · simp only [cacheInsert, hk, if_false, Bool.false_eq_true]
      cases hq : keyMatch kv.1 q with
      | true => simp [cacheGet, List.find?, hq]
      | false => simpa [cacheGet, List.find?, hq] using ih

theorem cacheGet_insert_isSome (c : Cache) (p q : Pos) (e : CacheEntry)
    (h : (cacheGet c q).isSome = true) :
    (cacheGet (cacheInsert c p e) q).isSome = true := by
  by_cases hqp : q = p
  · subst hqp
    rw [cacheGet_insert_self]
    rfl
  · rw [cacheGet_insert_ne c p q e hqp]
    exact h

theorem renderErr_cons (m : String) (e : Err) (h : e ≠ []) :
    renderErr (m :: e) = m ++ ": " ++ renderErr e := by
  cases e with
  | nil => exact absurd rfl h
  | cons m2 rest => rfl

/-! ## Helper lemmas: string-keyed maps and the city catalog -/

theorem sGet_insert_self {α : Type} (m : SMap α) (k : String) (v : α) :
    sGet (sInsert m k v) k = some v := by
  induction m with
  | nil => simp [sInsert, sGet, List.find?]
  | cons kv rest ih =>
    by_cases hk : kv.1 = k
    · simp [sInsert, hk, sGet, List.find?]
    · simp only [sInsert, hk, if_false]
      simpa [sGet, List.find?, hk] using ih

theorem sGet_insert_ne {α : Type} (m : SMap α) (k k' : String) (v : α)
    (h : k' ≠ k) : sGet (sInsert m k v) k' = sGet m k' := by
  have hkk : ¬(k = k') := fun hh => h (Eq.symm hh)
  induction m with
  | nil => simp [sInsert, sGet, List.find?, hkk]
  | cons kv rest ih =>
    by_cases hk : kv.1 = k
    · have hk' : ¬(kv.1 = k') := by rw [hk]; exact hkk
      simp [sInsert, hk, sGet, List.find?, hk', hkk]
    · by_cases hk' : kv.1 = k'
      · simp [sInsert, hk, sGet, List.find?, hk', h]
      · simp only [sInsert, hk, if_false]
        simpa [sGet, List.find?, hk'] using ih

theorem addCity_new (m : CitiesMap) (city : City) :
    ∃ inner, sGet (addCity m city) city.country = some inner ∧
      (sGet inner (strLower city.name)).isSome = true := by
  refine ⟨sInsert ((sGet m city.country).getD []) (strLower city.name)
    (Pos.mk city.lat city.lng), ?_, ?_⟩
  · simp only [addCity]
    exact sGet_insert_self _ _ _
  · rw [sGet_insert_self]
    rfl

theorem addCity_preserves (m : CitiesMap) (c n : String) (city : City)
    (h : ∃ inner, sGet m c = some inner ∧ (sGet inner n).isSome = true) :
    ∃ inner, sGet (addCity m city) c = some inner ∧
      (sGet inner n).isSome = true := by
  obtain ⟨inner, hin, hsome⟩ := h
  by_cases hc : city.country = c
  · subst hc
    refine ⟨sInsert ((sGet m city.country).getD []) (strLower city.name)
      (Pos.mk city.lat city.lng), ?_, ?_⟩
    · simp only [addCity]
      exact sGet_insert_self _ _ _
    · by_cases hn : n = strLower city.name
      · subst hn
        rw [sGet_insert_self]
        rfl
      · rw [sGet_insert_ne _ _ _ _ hn, hin] at *
        simpa [hin] using hsome
  · refine ⟨inner, ?_, hsome⟩
    simp only [addCity]
    rw [sGet_insert_ne _ _ _ _ (fun hh => hc (Eq.symm hh))]
    exact hin

theorem foldl_addCity_found (records : List City) (m : CitiesMap)
    (c n : String)
    (h : (∃ r ∈ records, r.country = c ∧ strLower r.name = n) ∨
         (∃ inner, sGet m c = some inner ∧ (sGet inner n).isSome = true)) :
    ∃ inner, sGet (List.foldl addCity m records) c = some inner ∧
      (sGet inner n).isSome = true := by
  induction records generalizing m with
  | nil =>
    rcases h with ⟨r, hr, _⟩ | h2
    · exact absurd hr (List.not_mem_nil r)
    · simpa using h2
  | cons city rest ih =>
    apply ih
    rcases h with ⟨r, hr, hrc, hrn⟩ | h2
    · rcases List.mem_cons.mp hr with rfl | hr'
      · right
        rw [← hrc, ← hrn]
        exact addCity_new m r
      · left
        exact ⟨r, hr', hrc, hrn⟩
    · right
      exact addCity_preserves m c n city h2

theorem foldl_addCity_absent (records : List City) (m : CitiesMap)
    (c : String) (hm : sGet m c = none) (h : ∀ r ∈ records, r.country ≠ c) :
    sGet (List.foldl addCity m records) c = none := by
  induction records generalizing m with
  | nil => simpa using hm
  | cons city rest ih =>
    apply ih
    · have hne : c ≠ city.country :=
        fun hh => (h city (List.mem_cons_self city rest)) (Eq.symm hh)
      simp only [addCity]
      rw [sGet_insert_ne _ _ _ _ hne]
      exact hm
    · intro r hr
      exact h r (List.mem_cons_of_mem city hr)

/-! ## Path lemmas for `Service::forecast` -/

theorem forecast_hit (s : Service) (today : ℤ) (cache : Cache) (pos : Pos)
    (f : Forecast) (hhit : freshHit cache pos today = some f) :
    s.forecast today cache pos = ⟨.ok f, cache, 0⟩ := by
  unfold Service.forecast
  rw [hhit]

theorem forecast_miss (s : Service) (today : ℤ) (cache : Cache) (pos : Pos)
    (hmiss : freshHit cache pos today = none) :
    s.forecast today cache pos =
      match fetch_forecast s.providers pos with
      | .error e => ⟨.error e, cache, s.providers.length⟩
      | .ok f => ⟨.ok f, cacheInsert cache pos ⟨today, f⟩, s.providers.length⟩ := by
  unfold Service.forecast
  rw [hmiss]

/-- Evaluation of the two stub providers at the origin: the combined forecast
is the spec example value `[3, 4, 5, 6, 7]`. -/
theorem fetch_svc2_pos0 :
    fetch_forecast svc2.providers pos0 = .ok ![3, 4, 5, 6, 7] := by
  rw [fetch_forecast_ok svc2.providers pos0 [vA, vB] rfl]
  congr 1
  funext i
  fin_cases i <;> norm_num [vA, vB, svc2]

/-- The two concrete positions are distinct exact values. -/
theorem posEps_ne_pos0 : posEps ≠ pos0 := by
  simp [posEps, pos0, f32Eps]

/-- The hasher inputs of the two epsilon-close positions differ. -/
theorem hashBytes_pos0_ne : ¬(Pos.hashBytes pos0 = Pos.hashBytes posEps) := by
  simp only [Pos.hashBytes, pos0, posEps, Prod.mk.injEq]
  norm_num [f32Eps]

theorem keyMatch_eps_pos0 : keyMatch posEps pos0 = false :=
  keyMatch_ne posEps pos0 posEps_ne_pos0

theorem cacheGet_cacheToday : cacheGet cacheToday pos0 = some entryToday := by
  simp [cacheGet, cacheToday, List.find?, keyMatch_refl]

theorem cacheGet_cacheStale : cacheGet cacheStale pos0 = some entryStale := by
  simp [cacheGet, cacheStale, List.find?, keyMatch_refl]

/-- An entry keyed one epsilon away is not found: the fast-path read misses. -/
theorem freshHit_eps_miss : freshHit [(posEps, entryToday)] pos0 0 = none := by
  simp [freshHit, cacheGet, List.find?, keyMatch_eps_pos0]

/-! ## Claims -/

/-- C1: on a cache miss where all configured providers succeed,
`forecast(position)` returns the 5-element forecast whose day `d` value is the
sum over providers of their day `d` values divided by the provider count cast
to the float type, computed uniformly per day index with no special-casing of
a single provider (the theorem covers every provider count, including one). -/
theorem spec_C1 (s : Service) (today : ℤ) (cache : Cache) (pos : Pos)
    (vs : List Forecast)
    (hmiss : freshHit cache pos today = none)
    (hok : s.providers.map (fun p => p pos) = vs.map Except.ok) :
    (s.forecast today cache pos).result =
      .ok (fun d => (vs.map (fun v => v d)).sum / (s.providers.length : ℚ)) := by
  rw [forecast_miss s today cache pos hmiss,
    fetch_forecast_ok s.providers pos vs hok]

/-- C1 witness: the spec example — two providers returning `[2,3,4,5,6]` and
`[4,5,6,7,8]` on an empty cache yield `[3,4,5,6,7]`. -/
theorem witness_C1 :
    freshHit [] pos0 0 = none ∧
    (svc2.forecast 0 [] pos0).result = .ok ![3, 4, 5, 6, 7] := by
  refine ⟨rfl, ?_⟩
  rw [spec_C1 svc2 0 [] pos0 [vA, vB] rfl rfl]
  congr 1
  funext i
  fin_cases i <;> norm_num [vA, vB, svc2]

/-- C2: if at least one provider fails on a cache-miss call, the whole call
fails with an error whose description is `"error while fetching forecast: "`
followed by the description of the first failing provider in provider-list
order (cause chain preserved as the tail of the chain), and the cache is not
written. -/
theorem spec_C2 (s : Service) (today : ℤ) (cache : Cache) (pos : Pos)
    (e : Err)
    (hmiss : freshHit cache pos today = none)
    (hfail : firstErr (s.providers.map (fun p => p pos)) = some e)
    (hne : e ≠ []) :
    (s.forecast today cache pos).result = .error (fetchCtx :: e) ∧
    renderErr (fetchCtx :: e) =
      "error while fetching forecast: " ++ renderErr e ∧
    (s.forecast today cache pos).cache = cache := by
  have hferr := fetch_forecast_error s.providers pos e hfail
  rw [forecast_miss s today cache pos hmiss, hferr]
  refine ⟨rfl, ?_, rfl⟩
  rw [renderErr_cons fetchCtx e hne]
  rfl

/-- C2 witness: a service whose second provider fails with
`"something bad happened"` on an empty cache. -/
theorem witness_C2 :
    (svcErr.forecast 0 [] pos0).result =
      .error [fetchCtx, "something bad happened"] ∧
    renderErr [fetchCtx, "something bad happened"] =
      "error while fetching forecast: something bad happened" ∧
    (svcErr.forecast 0 [] pos0).cache = [] := by
  have h := spec_C2 svcErr 0 [] pos0 ["something bad happened"] rfl rfl
    (by simp)
  refine ⟨h.1, ?_, h.2.2⟩
  rw [h.2.1]
  rfl

/-- C3: for a position whose cache entry is dated today, `forecast` returns
exactly the cached forecast, leaves the cache unchanged, and performs zero
provider fetches — for an arbitrary provider list, so a provider configured
to fail is never consulted on a fresh hit. -/
theorem spec_C3 (s : Service) (today : ℤ) (cache : Cache) (pos : Pos)
    (entry : CacheEntry)
    (hget : cacheGet cache pos = some entry)
    (hdate : entry.date = today) :
    s.forecast today cache pos = ⟨.ok entry.forecast, cache, 0⟩ := by
  have hhit : freshHit cache pos today = some entry.forecast := by
    unfold freshHit
    rw [hget]
    simp [hdate]
  exact forecast_hit s today cache pos entry.forecast hhit

/-- C3 witness: with a fresh entry cached, a service whose only provider
always fails still answers from the cache with zero fetches. -/
theorem witness_C3 :
    cacheGet cacheToday pos0 = some entryToday ∧
    svcFail.forecast 0 cacheToday pos0 = ⟨.ok vA, cacheToday, 0⟩ := by
  have hget := cacheGet_cacheToday
  exact ⟨hget, spec_C3 svcFail 0 cacheToday pos0 entryToday hget rfl⟩

/-- C5: a cache entry dated any day other than today (earlier or later) is
treated as a miss: the call performs the full provider fan-out (one fetch per
provider), returns whatever `fetch_forecast` produces, and on success
overwrites the stale entry with one dated today. -/
theorem spec_C5 (s : Service) (today : ℤ) (cache : Cache) (pos : Pos)
    (entry : CacheEntry)
    (hget : cacheGet cache pos = some entry)
    (hdate : entry.date ≠ today) :
    (s.forecast today cache pos).fetchCalls = s.providers.length ∧
    (s.forecast today cache pos).result = fetch_forecast s.providers pos ∧
    ∀ f, fetch_forecast s.providers pos = .ok f →
      (s.forecast today cache pos).cache = cacheInsert cache pos ⟨today, f⟩ ∧
      cacheGet (s.forecast today cache pos).cache pos = some ⟨today, f⟩ := by
  have hmiss : freshHit cache pos today = none := by
    unfold freshHit
    rw [hget]
    simp [hdate]
  rw [forecast_miss s today cache pos hmiss]
  cases hf : fetch_forecast s.providers pos with
  | error e =>
    refine ⟨rfl, rfl, ?_⟩
    intro f hff
    cases hff
  | ok f0 =>
    refine ⟨rfl, rfl, ?_⟩
    intro f hff
    cases hff
    exact ⟨rfl, cacheGet_insert_self cache pos ⟨today, f0⟩⟩

/-- C5 witness: a stale entry dated two days earlier triggers both fetches
and is overwritten with the combined forecast dated today. -/
theorem witness_C5 :
    cacheGet cacheStale pos0 = some entryStale ∧
    (svc2.forecast 0 cacheStale pos0).fetchCalls = 2 ∧
    cacheGet (svc2.forecast 0 cacheStale pos0).cache pos0 =
      some ⟨0, ![3, 4, 5, 6, 7]⟩ := by
  have hget := cacheGet_cacheStale
  have h := spec_C5 svc2 0 cacheStale pos0 entryStale hget (by decide)
  exact ⟨hget, h.1.trans rfl, (h.2.2 _ fetch_svc2_pos0).2⟩

/-- C6: constructing the service with an empty provider list fails at
construction time (the `panic!`, modelled as `none`), and every successfully
constructed service holds the non-empty list it was given — it can never
exist with zero providers. -/
theorem spec_C6 :
    Service.new [] = none ∧
    ∀ (ps : List Provider) (s : Service),
      Service.new ps = some s → ps ≠ [] ∧ s.providers = ps := by
  constructor
  · rfl
  · intro ps s h
    unfold Service.new at h
    by_cases hlen : ps.length = 0
    · rw [if_pos hlen] at h
      cases h
    · rw [if_neg hlen] at h
      injection h with h2
      subst h2
      exact ⟨fun hnil => hlen (by rw [hnil]; rfl), rfl⟩

/-- C6 witness: a one-provider list constructs successfully and is
non-empty. -/
theorem witness_C6 :
    Service.new [provA] = some ⟨[provA]⟩ ∧ ([provA] : List Provider) ≠ [] := by
  have h := spec_C6.2 [provA] ⟨[provA]⟩ rfl
  exact ⟨rfl, h.1⟩

/-- C7: a successful cache-miss call stores the combined forecast under
`(position, today)` and returns that same forecast; every entry under a
different key is unchanged, and no entry is ever deleted (every previously
present key is still present). -/
theorem spec_C7 (s : Service) (today : ℤ) (cache : Cache) (pos : Pos)
    (f : Forecast)
    (hmiss : freshHit cache pos today = none)
    (hok : fetch_forecast s.providers pos = .ok f) :
    (s.forecast today cache pos).result = .ok f ∧
    (s.forecast today cache pos).cache = cacheInsert cache pos ⟨today, f⟩ ∧
    cacheGet (s.forecast today cache pos).cache pos = some ⟨today, f⟩ ∧
    (∀ q : Pos, q ≠ pos →
      cacheGet (s.forecast today cache pos).cache q = cacheGet cache q) ∧
    (∀ q : Pos, (cacheGet cache q).isSome = true →
      (cacheGet (s.forecast today cache pos).cache q).isSome = true) := by
  rw [forecast_miss s today cache pos hmiss, hok]
  refine ⟨rfl, rfl, cacheGet_insert_self cache pos ⟨today, f⟩, ?_, ?_⟩
  · intro q hq
    exact cacheGet_insert_ne cache pos q ⟨today, f⟩ hq
  · intro q hq
    exact cacheGet_insert_isSome cache pos q ⟨today, f⟩ hq

/-- C7 witness: a miss on a cache holding an unrelated entry stores the
combined forecast and leaves the other entry readable unchanged. -/
theorem witness_C7 :
    freshHit [(posEps, entryToday)] pos0 0 = none ∧
    (svc2.forecast 0 [(posEps, entryToday)] pos0).result =
      .ok ![3, 4, 5, 6, 7] ∧
    cacheGet (svc2.forecast 0 [(posEps, entryToday)] pos0).cache posEps =
      cacheGet [(posEps, entryToday)] posEps := by
  have h := spec_C7 svc2 0 [(posEps, entryToday)] pos0 ![3, 4, 5, 6, 7]
    freshHit_eps_miss fetch_svc2_pos0
  exact ⟨freshHit_eps_miss, h.1, h.2.2.2.1 posEps posEps_ne_pos0⟩

/-- C8: city-to-position resolution (the `CITIES` table built with lowercased
names, queried by `fetch` with `city.to_lowercase()`) succeeds for any casing
of a recorded city name paired with the exact country string of that record,
and fails for any country string that is not the exact country of some record
— in particular one differing from every recorded country only in case. -/
theorem spec_C8 (records : List City) (r : City) (hr : r ∈ records)
    (v : String) (hv : strLower v = strLower r.name)
    (c' city' : String) (hc : ∀ r2 ∈ records, r2.country ≠ c') :
    (resolvePos records r.country v).isSome = true ∧
    resolvePos records c' city' = none := by
  constructor
  · obtain ⟨inner, hin, hsome⟩ :=
      foldl_addCity_found records [] r.country (strLower r.name)
        (Or.inl ⟨r, hr, rfl, rfl⟩)
    unfold resolvePos citiesFind buildCities
    rw [hv, hin]
    simpa using hsome
  · unfold resolvePos citiesFind buildCities
    rw [foldl_addCity_absent records [] c' rfl hc]
    rfl

/-- C8 witness: `"cHiCaGo"` with country `"US"` resolves against the
one-record catalog, while country `"us"` (case-changed) does not. -/
theorem witness_C8 :
    (resolvePos records1 "US" "cHiCaGo").isSome = true ∧
    resolvePos records1 "us" "chicago" = none := by
  have hc : ∀ r2 ∈ records1, r2.country ≠ "us" := by
    intro r2 hr2
    simp only [records1, List.mem_singleton] at hr2
    subst hr2
    decide
  have h := spec_C8 records1 cityChicago (by simp [records1]) "cHiCaGo"
    (by decide) "us" "chicago" hc
  exact h

/-- C9: `Pos` equality is not transitive, hence not an equivalence relation
despite the `Eq` marker implementation: the origin equals the point one
epsilon away, that point equals the point two epsilons away, yet the origin
does not equal the latter. -/
theorem spec_C9 :
    Pos.eqv pos0 posEps = true ∧
    Pos.eqv posEps pos2Eps = true ∧
    Pos.eqv pos0 pos2Eps = false := by
  have h3 : ¬(|pos0.lat - pos2Eps.lat| ≤ f32Eps) := by
    norm_num [pos0, pos2Eps, f32Eps, abs_le]
  refine ⟨?_, ?_, ?_⟩
  · simp [Pos.eqv, pos0, posEps]
    norm_num [f32Eps, abs_le]
  · simp [Pos.eqv, posEps, pos2Eps]
    norm_num [f32Eps, abs_le]
  · simp [Pos.eqv, h3]

/-- C10: the provider-combination step is deterministic — it is a function of
the sequence of provider results alone: whenever two provider lists produce
identical result sequences (same values, same order), `fetch_forecast`
produces identical outputs. -/
theorem spec_C10 (ps1 ps2 : List Provider) (q1 q2 : Pos)
    (h : ps1.map (fun p => p q1) = ps2.map (fun p => p q2)) :
    fetch_forecast ps1 q1 = fetch_forecast ps2 q2 := by
  have hlen : ps1.length = ps2.length := by
    have h2 := congrArg List.length h
    simpa using h2
  unfold fetch_forecast accumulate
  rw [h, hlen]

/-- C10 witness: the same stub provider queried at two different positions
yields the same result sequence and hence the same combined forecast. -/
theorem witness_C10 :
    fetch_forecast [provA] pos0 = fetch_forecast [provA] posEps :=
  spec_C10 [provA] [provA] pos0 posEps rfl

/-- C4 counterexample: the origin and the position one machine epsilon away
are equal under `Pos::eq`, yet they feed the hasher different byte strings,
and after storing under the origin a lookup by the epsilon-close equal key
misses — equal positions are not treated as the same cache key. -/
theorem cex_C4 :
    Pos.eqv pos0 posEps = true ∧
    Pos.hashBytes pos0 ≠ Pos.hashBytes posEps ∧
    cacheGet (cacheInsert [] pos0 ⟨0, zeroF⟩) posEps = none := by
  have hkm : keyMatch pos0 posEps = false :=
    keyMatch_ne pos0 posEps (fun h => posEps_ne_pos0 (Eq.symm h))
  refine ⟨?_, hashBytes_pos0_ne, ?_⟩
  · simp [Pos.eqv, pos0, posEps]
    norm_num [f32Eps, abs_le]
  · simp [cacheInsert, cacheGet, List.find?, hkm]

/-- C4 amended: equality is tolerance-based (two positions are equal iff both
component-wise absolute differences are at most the machine epsilon), but
hashing is byte-exact, so positions are guaranteed the same cache key only
when bit-identical: storing under one key is invisible to lookups under any
other key, even an epsilon-close equal one, and in particular positions
differing beyond epsilon are distinct keys. -/
theorem spec_C4 (a b : Pos) :
    (Pos.eqv a b = true ↔
      |a.lat - b.lat| ≤ f32Eps ∧ |a.lon - b.lon| ≤ f32Eps) ∧
    (Pos.hashBytes a = Pos.hashBytes b ↔ a = b) ∧
    (∀ c e, cacheGet (cacheInsert c a e) a = some e) ∧
    (a ≠ b → ∀ c e, cacheGet (cacheInsert c a e) b = cacheGet c b) := by
  refine ⟨?_, ?_, ?_, ?_⟩
  · simp [Pos.eqv, Bool.and_eq_true, decide_eq_true_eq]
  · cases a
    cases b
    simp [Pos.hashBytes, Prod.mk.injEq, Pos.mk.injEq]
  · intro c e
    exact cacheGet_insert_self c a e
  · intro hab c e
    exact cacheGet_insert_ne c a b e (fun hh => hab (Eq.symm hh))

/-- C4 witness: instantiating the amended claim at the epsilon-close pair:
the tolerance characterisation of equality, and storing under one of the two
keys being invisible to a lookup under the other. -/
theorem witness_C4 :
    (Pos.eqv posEps pos0 = true ↔
      |posEps.lat - pos0.lat| ≤ f32Eps ∧ |posEps.lon - pos0.lon| ≤ f32Eps) ∧
    cacheGet (cacheInsert [] posEps ⟨0, zeroF⟩) pos0 = cacheGet [] pos0 := by
  have h := spec_C4 posEps pos0
  exact ⟨h.1, h.2.2.2 posEps_ne_pos0 [] ⟨0, zeroF⟩⟩
